import Mathlib

/-!
Verification development for the cmake_index.nvim core
(rplugin/python3/cmake_index: index.py, server.py, __init__.py).

The Python sources are shallowly embedded: dictionaries become association
lists (insertion order preserved, as in Python 3.7+ dicts), raised
exceptions become an Except layer, and the filesystem / working directory
consulted by os.path functions becomes an explicit FS record.  The string
and path helpers below reproduce the Python str / posixpath operations the
sources rely on.
-/

namespace CmakeIndex

/-- Characters `str.split()` and `str.lstrip()` treat as whitespace
(the ASCII range used by the sources). -/
def isPySpace (c : Char) : Bool :=
  c = ' ' || c = '\t' || c = '\n' || c = '\r' || c = '\x0b' || c = '\x0c'

/-- Helper for `str.split()` with no separator: accumulates the current
word (reversed) while scanning. -/
def wsSplitAux : List Char → List Char → List (List Char)
  | [], acc => if acc = [] then [] else [acc.reverse]
  | c :: cs, acc =>
    if isPySpace c then
      if acc = [] then wsSplitAux cs [] else acc.reverse :: wsSplitAux cs []
    else wsSplitAux cs (c :: acc)

/-- Python `s.split()`: split on runs of whitespace, no empty pieces. -/
def pySplitWs (s : String) : List String :=
  (wsSplitAux s.data []).map String.mk

/-- Python `s.lstrip()`. -/
def pyLStrip (s : String) : String :=
  String.mk (s.data.dropWhile isPySpace)

/-- Python `s.startswith(pre)`. -/
def pyStartsWith (s pre : String) : Bool :=
  s.data.take pre.data.length == pre.data

/-- Python `s[1:-1]`: drop the first and the last character. -/
def pySliceInner (s : String) : String :=
  String.mk ((s.data.drop 1).dropLast)

/-- Python `os.path.split(p)[1]`: the part after the last slash. -/
def pyBaseName (p : String) : String :=
  String.mk ((p.data.reverse.takeWhile (fun c => c ≠ '/')).reverse)

/-- Core of `os.path.splitext(name)[0]` for a path component: the text
before the last dot, unless every character before that dot is itself a
dot (then the whole name is the root).  The sources only apply it to
basenames, which never contain a slash. -/
def splitextRootChars (name : List Char) : List Char :=
  match name.reverse.span (fun c => c ≠ '.') with
  | (_, []) => name
  | (_, _ :: preRev) =>
    if preRev.any (fun c => c ≠ '.') then preRev.reverse else name

/-- Python `os.path.splitext(name)[0]` on a basename. -/
def pySplitextRoot (name : String) : String :=
  String.mk (splitextRootChars name.data)

/-- Python `os.path.isabs(p)` (posix). -/
def pyIsAbs (p : String) : Bool :=
  p.data.take 1 == ['/']

/-- Python `os.path.join(a, b)` (posix, two arguments). -/
def pyJoin (a b : String) : String :=
  if pyIsAbs b then b
  else if a = "" || a.data.getLast? == some '/' then a ++ b
  else a ++ "/" ++ b

/-- Python `s.split(sep)` for a single-character separator: keeps empty
pieces, and the empty string yields one empty piece. -/
def splitOnChar (sep : Char) : List Char → List (List Char)
  | [] => [[]]
  | c :: cs =>
    if c = sep then [] :: splitOnChar sep cs
    else
      match splitOnChar sep cs with
      | [] => [[c]]
      | p :: ps => (c :: p) :: ps

/-- One step of posixpath.normpath's component scan: drop empty and
dot pieces, fold double dots against the collected components. -/
def normStep (initialSlashes : Bool) (acc : List (List Char)) (comp : List Char) :
    List (List Char) :=
  if comp = [] || comp = ['.'] then acc
  else if comp ≠ ['.', '.'] || (!initialSlashes && acc = []) ||
          (acc ≠ [] && acc.getLast? == some ['.', '.']) then acc ++ [comp]
  else if acc ≠ [] then acc.dropLast
  else acc

/-- Python `os.path.normpath(p)` (posix), including the special casing of
a path that begins with exactly two slashes. -/
def pyNormpath (p : String) : String :=
  if p = "" then "."
  else
    let slashes1 := pyIsAbs p
    let slashes2 := pyStartsWith p "//" && !(pyStartsWith p "///")
    let comps := splitOnChar '/' p.data
    let joined := String.intercalate "/" ((comps.foldl (normStep slashes1) []).map String.mk)
    let path := (if slashes2 then "//" else if slashes1 then "/" else "") ++ joined
    if path = "" then "." else path

/-- Python `os.path.abspath(p)` with the process working directory made
explicit. -/
def pyAbspath (cwd p : String) : String :=
  if pyIsAbs p then pyNormpath p else pyNormpath (pyJoin cwd p)

/-- Length of the common leading run of two lists. -/
def commonLen : List (List Char) → List (List Char) → Nat
  | a :: as, b :: bs => if a = b then commonLen as bs + 1 else 0
  | _, _ => 0

/-- Python `os.path.relpath(path, start)` (posix) with the working
directory made explicit. -/
def pyRelpath (cwd path start : String) : String :=
  let startList := (splitOnChar '/' (pyAbspath cwd start).data).filter (fun x => x ≠ [])
  let pathList := (splitOnChar '/' (pyAbspath cwd path).data).filter (fun x => x ≠ [])
  let i := commonLen startList pathList
  let relList := List.replicate (startList.length - i) ['.', '.'] ++ pathList.drop i
  if relList = [] then "." else String.intercalate "/" (relList.map String.mk)

/-- Python `os.path.dirname(p)` (posix). -/
def pyDirname (p : String) : String :=
  let head := (p.data.reverse.dropWhile (fun c => c ≠ '/')).reverse
  if head ≠ [] && head.any (fun c => c ≠ '/') then
    String.mk ((head.reverse.dropWhile (fun c => c = '/')).reverse)
  else String.mk head

/-- Python `str(x)` for an optional string, as used by format strings:
`None` prints as the text None. -/
def pyStr : Option String → String
  | some s => s
  | none => "None"

example : pySplitWs "  -Wall   -O2 " = ["-Wall", "-O2"] := by decide
example : pySplitWs "" = [] := by decide
example : pyLStrip "   #include" = "#include" := by decide
example : pyStartsWith "#include <a.h>" "#include" = true := by decide
example : pySliceInner "\"foo.hpp\"" = "foo.hpp" := by decide
example : pyBaseName "/a/b/foo.cpp" = "foo.cpp" := by decide
example : pySplitextRoot "foo.cpp" = "foo" := by decide
example : pySplitextRoot ".bashrc" = ".bashrc" := by decide
example : pySplitextRoot "a.b.c" = "a.b" := by decide
example : pyJoin "/a/b" "c.h" = "/a/b/c.h" := by decide
example : pyJoin "/a/b" "/abs.h" = "/abs.h" := by decide
example : pyJoin "" "x" = "x" := by decide
example : pyNormpath "/a/b/../c" = "/a/c" := by decide
example : pyNormpath "a//./b" = "a/b" := by decide
example : pyNormpath "" = "." := by decide
example : pyAbspath "/w" "x/y" = "/w/x/y" := by decide
example : pyRelpath "/w" "/s/a/b.c" "/s" = "a/b.c" := by decide
example : pyRelpath "/w" "/s/a" "/s/b" = "../a" := by decide
example : pyDirname "/a/b/c.txt" = "/a/b" := by decide
example : pyDirname "/a" = "/" := by decide
example : pyDirname "x" = "" := by decide

/-- Exceptions the embedded code can raise: IOError and UnicodeDecodeError
(caught in run_matching_header_heuristics), KeyError (missing dictionary
key), and any other exception kind. -/
inductive PyErr where
  | ioError
  | unicodeDecodeError
  | keyError (key : String)
  | otherError
deriving Repr, DecidableEq

/-- Python dict lookup `d.get(k)` on an association list (keys unique,
insertion order preserved): the first binding of the key, if any. -/
def dget {α : Type} : List (String × α) → String → Option α
  | [], _ => none
  | p :: rest, k => if p.1 = k then some p.2 else dget rest k

/-- Python `k in d`. -/
def dmem {α : Type} (d : List (String × α)) (k : String) : Bool :=
  (dget d k).isSome

/-- Python `d[k] = v`: overwrite in place when the key exists (Python
dicts keep the original insertion position), append otherwise. -/
def dset {α : Type} (d : List (String × α)) (k : String) (v : α) : List (String × α) :=
  if dmem d k then d.map (fun p => if p.1 = k then (k, v) else p)
  else d ++ [(k, v)]

/-- Python `d.update(new)`: set every binding of new, in order. -/
def dictUpdate {α : Type} (d new : List (String × α)) : List (String × α) :=
  new.foldl (fun acc kv => dset acc kv.1 kv.2) d

/-- One entry of a file group's includePath list in the codemodel reply.
The isSystem key is optional in the wire format (.get defaults to False). -/
structure IncludeEntry where
  path : String
  isSystem : Bool := false
deriving Repr, DecidableEq

/-- One file group object of a codemodel target, restricted to the keys
index.py reads; every key it reads with .get carries that default. -/
structure FileGroup where
  language : Option String := none
  compileFlags : String := ""
  defines : List String := []
  includePath : List IncludeEntry := []
  sources : List String := []
deriving Repr, DecidableEq

/-- A converted target dictionary (convert_target_info's shape).  The
object_dir and filepaths fields are Option because query_file can bind a
target name to a bare `dict()` that has neither key, and the squashed
dictionary built by merge_target_info has no object_dir key. -/
structure Target where
  name : String
  squashed : Bool
  ttype : String
  tree_root_dir : String
  tree_build_dir : String
  build_dir : String
  source_dir : String
  link_lang : Option String
  result_name : Option String
  artifacts : List String
  object_dir : Option String
  filepaths : Option (List String)
  all_includes : List String
  all_defines : List String
  all_other_flags : List String
  all_flags : List String
deriving Repr, DecidableEq

/-- A converted file dictionary (convert_file_info's shape).  The three
Option fields model keys that only some producers add: object_file is
absent from the dictionary built by get_file_info_for_directory, and
header_file / source_file are only added by the header heuristics. -/
structure FileInfo where
  path : String
  target_name : String
  tree_root_dir : String
  tree_build_dir : String
  lang : Option String
  heuristics : Bool
  other_flags : List String
  defines : List String
  includes : List String
  flags : List String
  object_file : Option String := none
  header_file : Option String := none
  source_file : Option String := none
deriving Repr, DecidableEq

/-- A converted project dictionary, restricted to its scalar fields; its
targets and files members are flattened into the index maps by
Index.initialize and are never read back through the project map. -/
structure Project where
  name : String
  source_dir : String
  build_dir : String
  tree_root_dir : String
  tree_build_dir : String
deriving Repr, DecidableEq

/-- The Index object's state: its two directories and the four
dictionaries (projects, targets, files, cache). -/
structure Index where
  build_directory : String
  root_directory : String
  projects : List (String × Project)
  targets : List (String × Target)
  files : List (String × FileInfo)
  cache : List (String × String)
deriving Repr, DecidableEq

/-- The ambient filesystem and process state consulted through the os
module: the working directory, os.path.isfile, and reading a text file
line by line (which can raise IOError or UnicodeDecodeError). -/
structure FS where
  cwd : String
  isfile : String → Bool
  readFile : String → Except PyErr (List String)

/-- Embedding of index.py include_path_to_flags: for every include entry,
append the -isystem or -I marker and then the path, resolving a relative
path against the parent target's source directory. -/
def include_path_to_flags (include_path_json : List IncludeEntry) (parent_target : Target) :
    List String :=
  match include_path_json with
  | [] => []
  | inc :: rest =>
    (if inc.isSystem then "-isystem" else "-I") ::
    (if pyIsAbs inc.path then inc.path else pyJoin parent_target.source_dir inc.path) ::
    include_path_to_flags rest parent_target

/-- Embedding of index.py convert_file_info.  The working directory is a
parameter because os.path.relpath resolves through os.path.abspath.  The
object_file field reads the parent's object_dir key, which
convert_target_info always sets on the parents this function receives. -/
def convert_file_info (cwd : String) (group_json : FileGroup) (parent_target : Target) :
    List FileInfo :=
  group_json.sources.map (fun filename =>
    let path := if pyIsAbs filename then filename
                else pyJoin parent_target.source_dir filename
    { target_name := parent_target.name
      tree_root_dir := parent_target.tree_root_dir
      tree_build_dir := parent_target.tree_build_dir
      lang := group_json.language
      heuristics := false
      other_flags := pySplitWs group_json.compileFlags
      defines := group_json.defines
      includes := group_json.includePath.map (fun inc =>
        if pyIsAbs inc.path then inc.path
        else pyJoin parent_target.source_dir inc.path)
      flags := pySplitWs group_json.compileFlags ++
        group_json.defines.map (fun d => "-D" ++ d) ++
        include_path_to_flags group_json.includePath parent_target
      path := path
      object_file := parent_target.object_dir.map (fun od =>
        od ++ "/" ++ pyRelpath cwd path parent_target.source_dir ++ ".o") })

/-- Embedding of index.py target_directories.  The source builds a set of
directory names; only membership in it is ever observed, so a list with
the same elements is used.  A target dictionary without a filepaths key
only exists on the query_file error path, which raises before this
function can see it. -/
def target_directories (target : Target) : List String :=
  (target.filepaths.getD []).map pyDirname

/-- Embedding of index.py targets_in_directory: the targets, in dictionary
order, owning at least one file in the given directory. -/
def targets_in_directory (abs_directory : String) (targets : List (String × Target)) :
    List Target :=
  targets.filterMap (fun p =>
    if (target_directories p.2).contains abs_directory then some p.2 else none)

/-- Embedding of index.py merge_target_info.  The source reads the keys
linkerLanguage and fullName from the first member with .get, but converted
target dictionaries store those values under link_lang and result_name, so
both lookups always miss and yield None.  No object_dir key is set on the
squashed dictionary. -/
def merge_target_info (cwd : String) (targets : List Target) : Option Target :=
  match targets with
  | [] => none
  | t0 :: _ =>
    some
    { name := String.intercalate "|" (targets.map (fun t => t.name))
      squashed := true
      ttype := t0.ttype
      tree_root_dir := t0.tree_root_dir
      tree_build_dir := t0.tree_build_dir
      build_dir := pyAbspath cwd t0.build_dir
      source_dir := pyAbspath cwd t0.source_dir
      link_lang := none
      result_name := none
      artifacts := t0.artifacts
      object_dir := none
      filepaths := some []
      all_includes := targets.foldl (fun acc t => acc ++ t.all_includes) []
      all_defines := targets.foldl (fun acc t => acc ++ t.all_defines) []
      all_other_flags := targets.foldl (fun acc t => acc ++ t.all_other_flags) []
      all_flags := targets.foldl (fun acc t => acc ++ t.all_flags) [] }

/-- Embedding of index.py get_file_info_for_directory.  The dictionary it
builds has no object_file, header_file or source_file key. -/
def get_file_info_for_directory (cwd : String) (abs_filepath : String)
    (targets : List (String × Target)) : Option FileInfo :=
  match merge_target_info cwd (targets_in_directory (pyDirname abs_filepath) targets) with
  | none => none
  | some merged_target =>
    some
    { path := abs_filepath
      target_name := merged_target.name
      tree_root_dir := merged_target.tree_root_dir
      tree_build_dir := merged_target.tree_build_dir
      lang := merged_target.link_lang
      heuristics := true
      other_flags := merged_target.all_other_flags
      defines := merged_target.all_defines
      includes := merged_target.all_includes
      flags := merged_target.all_flags }

/-- The bare `dict()` that query_file binds to an unknown target name: it
has no keys at all, so every field that models key presence is empty.  The
scalar fields never get read on this value — query_file raises KeyError on
its missing filepaths key first. -/
def emptyTargetDict : Target :=
  { name := ""
    squashed := false
    ttype := ""
    tree_root_dir := ""
    tree_build_dir := ""
    build_dir := ""
    source_dir := ""
    link_lang := none
    result_name := none
    artifacts := []
    object_dir := none
    filepaths := none
    all_includes := []
    all_defines := []
    all_other_flags := []
    all_flags := [] }

/-- Embedding of Index.query_file.  An exception discards the returned
state; in Python the KeyError path leaves the partially mutated object
behind, but no caller observes the index after that exception inside the
scope of the verified claims. -/
def Index.query_file (fs : FS) (idx : Index) (abs_path : String)
    (directory_heuristics : Bool) : Except PyErr (Option FileInfo × Index) :=
  match dget idx.files abs_path with
  | some info => .ok (some info, idx)
  | none =>
    if directory_heuristics then
      match get_file_info_for_directory fs.cwd abs_path idx.targets with
      | some result =>
        let idx1 : Index := { idx with files := dset idx.files abs_path result }
        let idx2 : Index :=
          if dmem idx1.targets result.target_name then idx1
          else { idx1 with targets := dset idx1.targets result.target_name emptyTargetDict }
        match dget idx2.targets result.target_name with
        | some t =>
          match t.filepaths with
          | some fps =>
            let t2 : Target := { t with filepaths := some (fps ++ [result.path]) }
            .ok (some result, { idx2 with targets := dset idx2.targets result.target_name t2 })
          | none => .error (.keyError "filepaths")
        | none => .error (.keyError result.target_name)
      | none => .ok (none, idx)
    else .ok (none, idx)

/-- Embedding of Index.cache_variable: plain dictionary get with a None
default. -/
def Index.cache_variable (idx : Index) (name : String) : Option String :=
  dget idx.cache name

/-- The include-directive scan of match_header: for each line, lstrip it,
keep it when it starts with the #include text, split it on whitespace and
record the second token with its first and last character removed (the
quote or angle bracket pair).  A line whose split has a single token is
skipped; the IndexError guard in the source is unreachable beyond that. -/
def includedFilesOfLines (lines : List String) : List String :=
  lines.filterMap (fun line =>
    let stripped := pyLStrip line
    if pyStartsWith stripped "#include" then
      match pySplitWs stripped with
      | [] => none
      | [_] => none
      | _ :: tok :: _ => some (pySliceInner tok)
    else none)

/-- The directory search of match_header: the first directory of the
search list in which the included file exists yields the copied record,
with heuristics set, the source file recorded, and the path rebuilt from
that directory. -/
def searchDirs (fs : FS) (file_info : FileInfo) (included_file : String) :
    List String → Option FileInfo
  | [] => none
  | d :: ds =>
    if fs.isfile (pyJoin d included_file) then
      some { file_info with
        heuristics := true
        source_file := some file_info.path
        path := pyAbspath fs.cwd (d ++ "/" ++ included_file) }
    else searchDirs fs file_info included_file ds

/-- The directive loop of match_header: skip directives whose basename
root differs from the source's, and on the first one that matches return
the directory search's outcome directly — the source's `return None` at
the end of the search means no later directive is ever examined. -/
def scanIncludes (fs : FS) (file_info : FileInfo) (rootName : String) :
    List String → Option FileInfo
  | [] => none
  | inc :: rest =>
    if pySplitextRoot (pyBaseName inc) ≠ rootName then
      scanIncludes fs file_info rootName rest
    else
      searchDirs fs file_info inc (fs.cwd :: file_info.includes)

/-- Embedding of index.py match_header: read the source file (errors
propagate), collect its include directives, and run the directive loop
with the working directory prepended to the file's include list. -/
def match_header (fs : FS) (file_info : FileInfo) : Except PyErr (Option FileInfo) := do
  let lines ← fs.readFile file_info.path
  let included_files := includedFilesOfLines lines
  let filename := pyBaseName file_info.path
  pure (scanIncludes fs file_info (pySplitextRoot filename) included_files)

/-- Whether run_matching_header_heuristics absorbs this match_header
outcome: successes pass through and IOError / UnicodeDecodeError are
caught; every other exception propagates. -/
def mhAbsorbable : Except PyErr (Option FileInfo) → Bool
  | .ok _ => true
  | .error .ioError => true
  | .error .unicodeDecodeError => true
  | .error _ => false

/-- The loop body of run_matching_header_heuristics over the remaining
files, carrying the new_files dictionary built so far. -/
def runMHHGo (fs : FS) : List (String × FileInfo) → List (String × FileInfo) →
    Except PyErr (List (String × FileInfo))
  | [], acc => .ok acc
  | (_, file) :: rest, acc =>
    match match_header fs file with
    | .error .ioError => runMHHGo fs rest acc
    | .error .unicodeDecodeError => runMHHGo fs rest acc
    | .error e => .error e
    | .ok none => runMHHGo fs rest acc
    | .ok (some header) =>
      runMHHGo fs rest
        (dset (dset acc header.path header) file.path
          { file with header_file := some header.path })

/-- Embedding of index.py run_matching_header_heuristics: iterate over the
known files in dictionary order, skip files whose read raised IOError or
UnicodeDecodeError, and for each pairing record the header under its path
and a copy of the source annotated with header_file. -/
def run_matching_header_heuristics (fs : FS) (known_files : List (String × FileInfo)) :
    Except PyErr (List (String × FileInfo)) :=
  runMHHGo fs known_files []

/-- The header-heuristics step of Index.initialize on the files map:
self dot files.update(run_matching_header_heuristics(self dot files)). -/
def initialize_files (fs : FS) (files : List (String × FileInfo)) :
    Except PyErr (List (String × FileInfo)) :=
  (run_matching_header_heuristics fs files).map (fun new => dictUpdate files new)

/-- One framed message read by CmakeServer.read_message, restricted to
the fields send_and_read inspects: its type, the errorMessage an error
frame carries, and an opaque body distinguishing frames. -/
structure Frame where
  ftype : String
  errorMessage : String := ""
  body : String := ""
deriving Repr, DecidableEq

/-- Outcome of CmakeServer.send_and_read's reader loop: the reply frame
together with the signal and message frames dispatched on the way (in
arrival order), a raised CmakeError carrying an error frame's message, or
a read that blocks forever because the stream has no further frame. -/
inductive ReadOutcome where
  | reply (frame : Frame) (signalsSeen : List Frame) (messagesSeen : List Frame)
  | errorRaised (message : String)
  | blocked
deriving Repr, DecidableEq

/-- Embedding of CmakeServer.send_and_read's reader loop over the stream
of incoming frames.  A non-reply frame is checked against the three typed
branches of the loop body (a frame has a single type, so the sequential
ifs of the source are disjoint); frames of any other type are consumed
silently, as in the source. -/
def send_and_read : List Frame → ReadOutcome
  | [] => .blocked
  | f :: rest =>
    if f.ftype = "reply" then .reply f [] []
    else if f.ftype = "error" then .errorRaised f.errorMessage
    else
      match send_and_read rest with
      | .reply r s m =>
        .reply r (if f.ftype = "signal" then f :: s else s)
                 (if f.ftype = "message" then f :: m else m)
      | o => o

/-- Loop condition of the socket wait in CmakeServer.start, on the state
(tries, number of polls already made): `tries < 10 and not
os.path.exists(socket_path)`. -/
def start_wait_cond (socket_exists : Nat → Bool) (s : Nat × Nat) : Bool :=
  decide (s.1 < 10) && !(socket_exists s.2)

/-- Loop body of the socket wait: the source only sleeps — the tries
counter is never incremented — so the state change is one more poll. -/
def start_wait_body (s : Nat × Nat) : Nat × Nat :=
  (s.1, s.2 + 1)

/-- Fuelled while-loop runner: none when the fuel runs out with the loop
still going, the final state otherwise. -/
def runWhile {α : Type} (cond : α → Bool) (body : α → α) : Nat → α → Option α
  | 0, _ => none
  | fuel + 1, s => if cond s then runWhile cond body fuel (body s) else some s

/-- The socket wait of CmakeServer.start, beginning at tries = 0 before
any poll, observed for a given number of loop iterations.  socket_exists
tells whether the socket file exists at the time of the n-th poll. -/
def start_socket_wait (socket_exists : Nat → Bool) (fuel : Nat) : Option (Nat × Nat) :=
  runWhile (start_wait_cond socket_exists) start_wait_body fuel (0, 0)

/-- One record of the compilation database built by
Plugin.generate_compilation_database. -/
structure CompileCommand where
  directory : String
  file : String
  command : String
deriving Repr, DecidableEq

/-- One iteration of Plugin.generate_compilation_database: resolve the
compiler through the cache variable named for the file's language (None
formats as the text None), and fill the command format string.  The
object_file lookup is a plain subscript and raises KeyError when the
record has no such key. -/
def compdbRecord (idx : Index) (file : FileInfo) : Except PyErr CompileCommand :=
  let compiler_path := idx.cache_variable ("CMAKE_" ++ pyStr file.lang ++ "_COMPILER")
  match file.object_file with
  | none => .error (.keyError "object_file")
  | some obj =>
    .ok
    { directory := file.tree_build_dir
      file := file.path
      command := pyStr compiler_path ++ " " ++ String.intercalate " " file.flags ++
        " -c " ++ file.path ++ " -o " ++ obj }

/-- The loop of Plugin.generate_compilation_database over the remaining
files. -/
def compdbGo (idx : Index) : List (String × FileInfo) → Except PyErr (List CompileCommand)
  | [] => .ok []
  | (_, file) :: rest => do
    let entry ← compdbRecord idx file
    let tail ← compdbGo idx rest
    pure (entry :: tail)

/-- Embedding of Plugin.generate_compilation_database: one record per
file of the index's files dictionary, in dictionary order. -/
def generate_compilation_database (idx : Index) : Except PyErr (List CompileCommand) :=
  compdbGo idx idx.files

lemma dmem_cons {α : Type} (a : String × α) (d : List (String × α)) (k : String) :
    dmem (a :: d) k = (a.1 == k || dmem d k) := by
  by_cases ha : a.1 = k
  · simp [dmem, dget, ha]
  · simp [dmem, dget, ha]

lemma dget_map_set {α : Type} (d : List (String × α)) (k : String) (v : α) :
    dget (d.map (fun p => if p.1 = k then (k, v) else p)) k =
      if dmem d k then some v else none := by
  induction d with
  | nil => simp [dget, dmem]
  | cons a d ih =>
    by_cases ha : a.1 = k
    · simp [dget, dmem_cons, ha]
    · simp [dget, dmem_cons, ha, ih]

lemma dget_map_set_ne {α : Type} (d : List (String × α)) (k k' : String) (v : α)
    (h : k' ≠ k) : dget (d.map (fun p => if p.1 = k' then (k', v) else p)) k = dget d k := by
  induction d with
  | nil => simp [dget]
  | cons a d ih =>
    by_cases ha : a.1 = k'
    · have hak : a.1 ≠ k := by rw [ha]; exact h
      simp [dget, ha, h, hak, ih]
    · by_cases hk : a.1 = k
      · simp [dget, ha, hk, Ne.symm h]
      · simp [dget, ha, hk, ih]

lemma dget_eq_none_forall {α : Type} {d : List (String × α)} {k : String}
    (h : dget d k = none) : ∀ p ∈ d, p.1 ≠ k := by
  induction d with
  | nil => intro p hp; cases hp
  | cons a d ih =>
    by_cases ha : a.1 = k
    · simp [dget, ha] at h
    · intro p hp
      rcases List.mem_cons.mp hp with rfl | hp
      · exact ha
      · have h' : dget d k = none := by simpa [dget, ha] using h
        exact ih h' p hp

lemma dget_append {α : Type} (d1 d2 : List (String × α)) (k : String) :
    dget (d1 ++ d2) k = match dget d1 k with
      | some v => some v
      | none => dget d2 k := by
  induction d1 with
  | nil => simp [dget]
  | cons a d ih =>
    by_cases ha : a.1 = k
    · simp [dget, ha]
    · simp [dget, ha, ih]

lemma dget_of_not_dmem {α : Type} {d : List (String × α)} {k : String}
    (hm : ¬ dmem d k = true) : dget d k = none := by
  cases hv : dget d k with
  | none => rfl
  | some w => exact absurd (by simp [dmem, hv]) hm

lemma dget_dset_self {α : Type} (d : List (String × α)) (k : String) (v : α) :
    dget (dset d k v) k = some v := by
  unfold dset
  by_cases hm : dmem d k
  · simp [hm, dget_map_set]
  · rw [if_neg hm, dget_append, dget_of_not_dmem hm]
    simp [dget]

lemma dget_dset_ne {α : Type} (d : List (String × α)) (k k' : String) (v : α)
    (h : k' ≠ k) : dget (dset d k' v) k = dget d k := by
  unfold dset
  by_cases hm : dmem d k'
  · simp [hm, dget_map_set_ne _ _ _ _ h]
  · rw [if_neg hm, dget_append]
    cases hv : dget d k with
    | none => simp [hv, dget, h]
    | some w => simp [hv]

lemma keys_dset {α : Type} (d : List (String × α)) (k : String) (v : α)
    (h : (d.map Prod.fst).Nodup) : ((dset d k v).map Prod.fst).Nodup := by
  unfold dset
  by_cases hm : dmem d k
  · have hkeys : (d.map (fun p => if p.1 = k then (k, v) else p)).map Prod.fst
        = d.map Prod.fst := by
      rw [List.map_map]
      apply List.map_congr_left
      intro p _
      by_cases hp : p.1 = k
      · simp [hp]
      · simp [hp]
    rw [if_pos hm, hkeys]
    exact h
  · have hout : ∀ p ∈ d, p.1 ≠ k := dget_eq_none_forall (dget_of_not_dmem hm)
    rw [if_neg hm]
    simp only [List.map_append, List.map_cons, List.map_nil]
    rw [List.nodup_append]
    refine ⟨h, List.nodup_singleton k, ?_⟩
    intro x hx hy
    simp only [List.mem_singleton] at hy
    rcases List.mem_map.mp hx with ⟨p, hp, rfl⟩
    exact hout p hp hy

lemma dget_dictUpdate_not_mem {α : Type} {new : List (String × α)} {k : String}
    (h : ∀ p ∈ new, p.1 ≠ k) (d : List (String × α)) :
    dget (dictUpdate d new) k = dget d k := by
  induction new generalizing d with
  | nil => rfl
  | cons a rest ih =>
    have hk : a.1 ≠ k := h a (List.mem_cons_self a rest)
    have hrest : ∀ p ∈ rest, p.1 ≠ k := fun p hp => h p (List.mem_cons_of_mem a hp)
    calc dget (dictUpdate d (a :: rest)) k
        = dget (dictUpdate (dset d a.1 a.2) rest) k := rfl
      _ = dget (dset d a.1 a.2) k := ih hrest (dset d a.1 a.2)
      _ = dget d k := dget_dset_ne d k a.1 a.2 hk

lemma dget_dictUpdate_of_dget {α : Type} {new : List (String × α)} {k : String} {v : α}
    (h : dget new k = some v) (hnd : (new.map Prod.fst).Nodup) (d : List (String × α)) :
    dget (dictUpdate d new) k = some v := by
  induction new generalizing d with
  | nil => simp [dget] at h
  | cons a rest ih =>
    by_cases ha : a.1 = k
    · have hv : a.2 = v := by simpa [dget, ha] using h
      have hout : ∀ p ∈ rest, p.1 ≠ k := by
        intro p hp hpk
        have : a.1 ∈ rest.map Prod.fst := by
          rw [ha, ← hpk]
          exact List.mem_map_of_mem Prod.fst hp
        simp only [List.map_cons, List.nodup_cons] at hnd
        exact hnd.1 this
      calc dget (dictUpdate d (a :: rest)) k
          = dget (dictUpdate (dset d a.1 a.2) rest) k := rfl
        _ = dget (dset d a.1 a.2) k := dget_dictUpdate_not_mem hout _
        _ = some v := by rw [ha, hv]; exact dget_dset_self d k v
    · have h' : dget rest k = some v := by simpa [dget, ha] using h
      have hnd' : (rest.map Prod.fst).Nodup := by
        simp only [List.map_cons, List.nodup_cons] at hnd
        exact hnd.2
      exact ih h' hnd' (dset d a.1 a.2)

lemma runMHHGo_cons (fs : FS) (k : String) (f : FileInfo)
    (rest : List (String × FileInfo)) (acc : List (String × FileInfo)) :
    runMHHGo fs ((k, f) :: rest) acc =
      match match_header fs f with
      | .error .ioError => runMHHGo fs rest acc
      | .error .unicodeDecodeError => runMHHGo fs rest acc
      | .error e => .error e
      | .ok none => runMHHGo fs rest acc
      | .ok (some header) =>
        runMHHGo fs rest
          (dset (dset acc header.path header) f.path
            { f with header_file := some header.path }) := rfl

lemma runMHHGo_append (fs : FS) (l1 l2 : List (String × FileInfo))
    (acc : List (String × FileInfo)) :
    runMHHGo fs (l1 ++ l2) acc =
      match runMHHGo fs l1 acc with
      | .ok acc1 => runMHHGo fs l2 acc1
      | .error e => .error e := by
  induction l1 generalizing acc with
  | nil => rfl
  | cons a l1 ih =>
    rcases a with ⟨k, f⟩
    rw [List.cons_append, runMHHGo_cons, runMHHGo_cons]
    cases hmh : match_header fs f with
    | ok o =>
      cases o with
      | none => exact ih acc
      | some header => exact ih _
    | error e =>
      cases e with
      | ioError => exact ih acc
      | unicodeDecodeError => exact ih acc
      | keyError s => rfl
      | otherError => rfl

lemma runMHHGo_isOk (fs : FS) (l : List (String × FileInfo))
    (acc : List (String × FileInfo))
    (habs : ∀ p ∈ l, mhAbsorbable (match_header fs p.2) = true) :
    ∃ acc', runMHHGo fs l acc = .ok acc' := by
  induction l generalizing acc with
  | nil => exact ⟨acc, rfl⟩
  | cons a l ih =>
    rcases a with ⟨k, f⟩
    have habs' : ∀ p ∈ l, mhAbsorbable (match_header fs p.2) = true :=
      fun p hp => habs p (List.mem_cons_of_mem _ hp)
    have hhead := habs (k, f) (List.mem_cons_self _ l)
    rw [runMHHGo_cons]
    cases hmh : match_header fs f with
    | ok o =>
      cases o with
      | none => exact ih acc habs'
      | some header => exact ih _ habs'
    | error e =>
      cases e with
      | ioError => exact ih acc habs'
      | unicodeDecodeError => exact ih acc habs'
      | keyError s => rw [hmh] at hhead; simp [mhAbsorbable] at hhead
      | otherError => rw [hmh] at hhead; simp [mhAbsorbable] at hhead

lemma runMHHGo_keys_nodup (fs : FS) (l : List (String × FileInfo))
    (acc acc' : List (String × FileInfo))
    (hnd : (acc.map Prod.fst).Nodup)
    (hrun : runMHHGo fs l acc = .ok acc') : (acc'.map Prod.fst).Nodup := by
  induction l generalizing acc with
  | nil =>
    have : acc = acc' := by simpa [runMHHGo] using hrun
    rw [← this]; exact hnd
  | cons a l ih =>
    rcases a with ⟨k, f⟩
    rw [runMHHGo_cons] at hrun
    cases hmh : match_header fs f with
    | ok o =>
      cases o with
      | none => rw [hmh] at hrun; exact ih acc hnd hrun
      | some header =>
        rw [hmh] at hrun
        exact ih _ (keys_dset _ _ _ (keys_dset _ _ _ hnd)) hrun
    | error e =>
      cases e with
      | ioError => rw [hmh] at hrun; exact ih acc hnd hrun
      | unicodeDecodeError => rw [hmh] at hrun; exact ih acc hnd hrun
      | keyError s => rw [hmh] at hrun; cases hrun
      | otherError => rw [hmh] at hrun; cases hrun

lemma runMHHGo_preserve (fs : FS) (l : List (String × FileInfo))
    (acc acc' : List (String × FileInfo)) (k : String) (v : FileInfo)
    (hrun : runMHHGo fs l acc = .ok acc')
    (hget : dget acc k = some v)
    (hnocol : ∀ p ∈ l, p.2.path ≠ k ∧
      ∀ h', match_header fs p.2 = .ok (some h') → h'.path ≠ k) :
    dget acc' k = some v := by
  induction l generalizing acc with
  | nil =>
    have : acc = acc' := by simpa [runMHHGo] using hrun
    rw [← this]; exact hget
  | cons a l ih =>
    rcases a with ⟨k0, f⟩
    have hnocol' : ∀ p ∈ l, p.2.path ≠ k ∧
        ∀ h', match_header fs p.2 = .ok (some h') → h'.path ≠ k :=
      fun p hp => hnocol p (List.mem_cons_of_mem _ hp)
    have hhead := hnocol (k0, f) (List.mem_cons_self _ l)
    rw [runMHHGo_cons] at hrun
    cases hmh : match_header fs f with
    | ok o =>
      cases o with
      | none => rw [hmh] at hrun; exact ih acc hrun hget hnocol'
      | some header =>
        rw [hmh] at hrun
        refine ih _ hrun ?_ hnocol'
        rw [dget_dset_ne _ _ _ _ hhead.1, dget_dset_ne _ _ _ _ (hhead.2 header hmh)]
        exact hget
    | error e =>
      cases e with
      | ioError => rw [hmh] at hrun; exact ih acc hrun hget hnocol'
      | unicodeDecodeError => rw [hmh] at hrun; exact ih acc hrun hget hnocol'
      | keyError s => rw [hmh] at hrun; cases hrun
      | otherError => rw [hmh] at hrun; cases hrun

lemma searchDirs_shape {fs : FS} {f : FileInfo} {inc : String} {dirs : List String}
    {h : FileInfo} (hs : searchDirs fs f inc dirs = some h) :
    h.heuristics = true ∧ h.source_file = some f.path ∧ h.flags = f.flags ∧
      h.includes = f.includes := by
  induction dirs with
  | nil => cases hs
  | cons d ds ih =>
    by_cases hf : fs.isfile (pyJoin d inc)
    · have heq : ({ f with
          heuristics := true
          source_file := some f.path
          path := pyAbspath fs.cwd (d ++ "/" ++ inc) } : FileInfo) = h := by
        simpa [searchDirs, hf] using hs
      rw [← heq]
      exact ⟨rfl, rfl, rfl, rfl⟩
    · exact ih (by simpa [searchDirs, hf] using hs)

lemma scanIncludes_shape {fs : FS} {f : FileInfo} {rootName : String}
    {incs : List String} {h : FileInfo}
    (hs : scanIncludes fs f rootName incs = some h) :
    h.heuristics = true ∧ h.source_file = some f.path ∧ h.flags = f.flags ∧
      h.includes = f.includes := by
  induction incs with
  | nil => cases hs
  | cons inc rest ih =>
    by_cases hn : pySplitextRoot (pyBaseName inc) = rootName
    · exact searchDirs_shape (by simpa [scanIncludes, hn] using hs)
    · exact ih (by simpa [scanIncludes, hn] using hs)

lemma match_header_eq_bind (fs : FS) (f : FileInfo) :
    match_header fs f = (fs.readFile f.path).bind (fun lines =>
      Except.ok (scanIncludes fs f (pySplitextRoot (pyBaseName f.path))
        (includedFilesOfLines lines))) := rfl

lemma match_header_of_read {fs : FS} {f : FileInfo} {lines : List String}
    (hr : fs.readFile f.path = .ok lines) :
    match_header fs f = .ok (scanIncludes fs f (pySplitextRoot (pyBaseName f.path))
      (includedFilesOfLines lines)) := by
  rw [match_header_eq_bind, hr]
  rfl

lemma match_header_shape {fs : FS} {f : FileInfo} {h : FileInfo}
    (hm : match_header fs f = .ok (some h)) :
    h.heuristics = true ∧ h.source_file = some f.path ∧ h.flags = f.flags ∧
      h.includes = f.includes := by
  cases hr : fs.readFile f.path with
  | error e =>
    rw [match_header_eq_bind, hr] at hm
    cases hm
  | ok lines =>
    rw [match_header_of_read hr] at hm
    exact scanIncludes_shape (Except.ok.inj hm)

/-- A small converted target owning one file in the directory /proj/d. -/
def tA : Target :=
  { name := "alpha"
    squashed := false
    ttype := "EXECUTABLE"
    tree_root_dir := "/proj"
    tree_build_dir := "/proj/build"
    build_dir := "/proj/build"
    source_dir := "/proj"
    link_lang := some "CXX"
    result_name := some "alpha"
    artifacts := []
    object_dir := some "/proj/build/CMakeFiles/alpha.dir"
    filepaths := some ["/proj/d/a.c"]
    all_includes := ["/proj/inc"]
    all_defines := ["A"]
    all_other_flags := ["-Wall"]
    all_flags := ["-Wall", "-DA", "-I", "/proj/inc"] }

/-- A second converted target owning another file in the same directory. -/
def tB : Target :=
  { tA with
    name := "beta"
    filepaths := some ["/proj/d/b.c"]
    all_includes := []
    all_defines := ["B"]
    all_other_flags := []
    all_flags := ["-DB"] }

/-- A filesystem on which nothing exists and every read raises IOError. -/
def fsPlain : FS :=
  { cwd := "/work"
    isfile := fun _ => false
    readFile := fun _ => .error .ioError }

/-- A filesystem on which every read raises an exception that is neither
IOError nor UnicodeDecodeError. -/
def fsOther : FS :=
  { cwd := "/work"
    isfile := fun _ => false
    readFile := fun _ => .error .otherError }

/-- An index holding the two targets that share the directory /proj/d. -/
def idx2T : Index :=
  { build_directory := "/proj/build"
    root_directory := "/proj"
    projects := []
    targets := [("alpha", tA), ("beta", tB)]
    files := []
    cache := [] }

/-- The same index with the single target alpha. -/
def idx1T : Index :=
  { idx2T with targets := [("alpha", tA)] }

/-- C1: the socket wait of CmakeServer.start never terminates when the
socket file never appears, however long it is observed — the loop
condition stays true because the source never increments the tries
counter, so the StartupFailure branch after the loop is unreachable.  The
claim's bounded wait of ten half-second polls is what the error text after
the loop promises, but the loop itself never exits. -/
theorem start_socket_wait_never_terminates (fuel : Nat) :
    start_socket_wait (fun _ => false) fuel = none := by
  suffices hgen : ∀ n k, runWhile (start_wait_cond (fun _ => false)) start_wait_body n (0, k)
      = none from hgen fuel 0
  intro n
  induction n with
  | zero => intro k; rfl
  | succ m ih =>
    intro k
    have hc : start_wait_cond (fun _ => false) (0, k) = true := rfl
    rw [runWhile, if_pos hc]
    exact ih (k + 1)

/-- C2: querying an unknown file in a directory shared by the two targets
alpha and beta raises KeyError instead of returning the squashed record:
query_file binds the squashed name to a bare dict and immediately reads
its missing filepaths key.  The second conjunct shows the squashed
target's aggregated flags are the members' flag lists concatenated in
target order, as the claim demands of the record that never gets
returned. -/
theorem query_file_squash_filepaths_keyerror :
    Index.query_file fsPlain idx2T "/proj/d/new.c" true = .error (.keyError "filepaths") ∧
    (merge_target_info fsPlain.cwd [tA, tB]).map (fun t => t.all_flags) =
      some (tA.all_flags ++ tB.all_flags) := by
  constructor
  · rfl
  · rfl

/-- C10: with directory_heuristics disabled, query_file on a path missing
from the file map returns None and leaves the index record — all four
maps included — exactly as it was. -/
theorem query_file_no_heuristics_pure (fs : FS) (idx : Index) (p : String)
    (h : dget idx.files p = none) :
    Index.query_file fs idx p false = .ok (none, idx) := by
  unfold Index.query_file
  rw [h]
  rfl

/-- Witness for C10 at a concrete index and path. -/
theorem query_file_no_heuristics_pure_witness :
    dget idx2T.files "/nowhere/z.c" = none ∧
    Index.query_file fsPlain idx2T "/nowhere/z.c" false = .ok (none, idx2T) :=
  ⟨rfl, query_file_no_heuristics_pure fsPlain idx2T "/nowhere/z.c" rfl⟩

/-- A converted source file /proj/foo.cpp whose include list holds
/proj/inc. -/
def fC3 : FileInfo :=
  { path := "/proj/foo.cpp"
    target_name := "alpha"
    tree_root_dir := "/proj"
    tree_build_dir := "/proj/build"
    lang := some "CXX"
    heuristics := false
    other_flags := []
    defines := []
    includes := ["/proj/inc"]
    flags := ["-I", "/proj/inc"]
    object_file := some "/proj/build/CMakeFiles/alpha.dir/foo.cpp.o" }

/-- A filesystem in which /proj/foo.cpp holds two name-matching include
directives; only the second one resolves on the search path (the real
header is /proj/inc/sub/foo.hpp). -/
def fsC3 : FS :=
  { cwd := "/work"
    isfile := fun p => p = "/proj/inc/sub/foo.hpp"
    readFile := fun p =>
      if p = "/proj/foo.cpp" then
        .ok ["#include \"foo.hpp\"", "#include \"sub/foo.hpp\"", "int x;"]
      else .error .ioError }

/-- C3 counterexample: on fsC3, the first name-matching directive
foo.hpp fails to resolve, the second directive sub/foo.hpp name-matches
and resolves on the file's own include path, yet match_header ends the
scan at the first directive and reports no pairing — refuting the claim
that a non-resolving name match lets the scan continue. -/
theorem match_header_stops_at_unresolvable_first_match :
    fsC3.readFile fC3.path =
      .ok ["#include \"foo.hpp\"", "#include \"sub/foo.hpp\"", "int x;"] ∧
    includedFilesOfLines ["#include \"foo.hpp\"", "#include \"sub/foo.hpp\"", "int x;"] =
      ["foo.hpp", "sub/foo.hpp"] ∧
    pySplitextRoot (pyBaseName "sub/foo.hpp") = pySplitextRoot (pyBaseName fC3.path) ∧
    fC3.includes = ["/proj/inc"] ∧
    fsC3.isfile (pyJoin "/proj/inc" "sub/foo.hpp") = true ∧
    match_header fsC3 fC3 = .ok none := by
  refine ⟨rfl, by decide, by decide, rfl, by decide, rfl⟩

/-- Skipping the leading directives whose basename root does not match
leaves the scan of the remaining directives unchanged. -/
lemma scanIncludes_skip (fs : FS) (f : FileInfo) (rootName : String)
    (pre rest : List String)
    (hpre : ∀ i ∈ pre, pySplitextRoot (pyBaseName i) ≠ rootName) :
    scanIncludes fs f rootName (pre ++ rest) = scanIncludes fs f rootName rest := by
  induction pre with
  | nil => rfl
  | cons i pre ih =>
    have hi : pySplitextRoot (pyBaseName i) ≠ rootName := hpre i (List.mem_cons_self i pre)
    rw [List.cons_append]
    show scanIncludes fs f rootName (i :: (pre ++ rest)) = _
    rw [scanIncludes, if_pos hi]
    exact ih (fun j hj => hpre j (List.mem_cons_of_mem i hj))

/-- C3 amended: the first name-matching include directive alone decides
the outcome of the scan.  When the source file reads successfully and its
directive list splits as pre ++ m :: post with no name match in pre and m
a name match, match_header returns exactly the directory search's result
for m — a pairing when m resolves, and none (with post never examined)
when it does not. -/
theorem match_header_first_name_match_decides (fs : FS) (f : FileInfo)
    (lines : List String) (pre : List String) (m : String) (post : List String)
    (hread : fs.readFile f.path = .ok lines)
    (hincl : includedFilesOfLines lines = pre ++ m :: post)
    (hpre : ∀ i ∈ pre, pySplitextRoot (pyBaseName i) ≠ pySplitextRoot (pyBaseName f.path))
    (hm : pySplitextRoot (pyBaseName m) = pySplitextRoot (pyBaseName f.path)) :
    match_header fs f = .ok (searchDirs fs f m (fs.cwd :: f.includes)) := by
  rw [match_header_of_read hread, hincl,
    scanIncludes_skip fs f _ pre (m :: post) hpre]
  rw [scanIncludes, if_neg (by rw [hm]; exact fun hc => hc rfl)]

/-- Witness for the amended C3 at the concrete counterexample input: the
first name-matching directive fails to resolve, and the scan's outcome is
exactly that failed directory search. -/
theorem match_header_first_name_match_decides_witness :
    match_header fsC3 fC3 = .ok (searchDirs fsC3 fC3 "foo.hpp" (fsC3.cwd :: fC3.includes)) :=
  match_header_first_name_match_decides fsC3 fC3
    ["#include \"foo.hpp\"", "#include \"sub/foo.hpp\"", "int x;"]
    [] "foo.hpp" ["sub/foo.hpp"] rfl (by decide)
    (fun i hi => absurd hi (List.not_mem_nil i)) (by decide)

/-- The include-flag loop in closed form: every entry contributes its
marker and its resolved path, in entry order. -/
lemma include_path_to_flags_eq (l : List IncludeEntry) (t : Target) :
    include_path_to_flags l t = l.flatMap (fun inc =>
      [if inc.isSystem then "-isystem" else "-I",
       if pyIsAbs inc.path then inc.path else pyJoin t.source_dir inc.path]) := by
  induction l with
  | nil => rfl
  | cons inc rest ih => simp [include_path_to_flags, ih]

/-- C4: every File produced from a file group carries the flag list
built, in this order, from the whitespace-split free-form compile flags,
one -D entry per define, and per include entry the -isystem or -I marker
followed by the path — joined onto the owning target's source directory
when relative and kept as is when absolute. -/
theorem convert_file_info_flags_order (cwd : String) (group : FileGroup)
    (parent : Target) :
    ∀ f ∈ convert_file_info cwd group parent,
      f.flags = pySplitWs group.compileFlags ++
        group.defines.map (fun d => "-D" ++ d) ++
        group.includePath.flatMap (fun inc =>
          [if inc.isSystem then "-isystem" else "-I",
           if pyIsAbs inc.path then inc.path else pyJoin parent.source_dir inc.path]) := by
  intro f hf
  simp only [convert_file_info, List.mem_map] at hf
  obtain ⟨src, _, rfl⟩ := hf
  simp [include_path_to_flags_eq]

/-- A file group with flags, defines, and one absolute and one relative
include entry. -/
def groupG : FileGroup :=
  { language := some "CXX"
    compileFlags := " -Wall  -O2"
    defines := ["FOO", "BAR=1"]
    includePath := [⟨"/abs/inc", true⟩, ⟨"rel/inc", false⟩]
    sources := ["d/a.cpp", "/abs/b.cpp"] }

/-- The first File convert_file_info produces from groupG under tA. -/
def fC4 : FileInfo :=
  { path := "/proj/d/a.cpp"
    target_name := "alpha"
    tree_root_dir := "/proj"
    tree_build_dir := "/proj/build"
    lang := some "CXX"
    heuristics := false
    other_flags := ["-Wall", "-O2"]
    defines := ["FOO", "BAR=1"]
    includes := ["/abs/inc", "/proj/rel/inc"]
    flags := ["-Wall", "-O2", "-DFOO", "-DBAR=1", "-isystem", "/abs/inc", "-I", "/proj/rel/inc"]
    object_file := some "/proj/build/CMakeFiles/alpha.dir/d/a.cpp.o" }

/-- Witness for C4 at the concrete group groupG and parent tA. -/
theorem convert_file_info_flags_order_witness :
    fC4 ∈ convert_file_info "/work" groupG tA ∧
    fC4.flags = pySplitWs groupG.compileFlags ++
      groupG.defines.map (fun d => "-D" ++ d) ++
      groupG.includePath.flatMap (fun inc =>
        [if inc.isSystem then "-isystem" else "-I",
         if pyIsAbs inc.path then inc.path else pyJoin tA.source_dir inc.path]) :=
  ⟨by decide, convert_file_info_flags_order "/work" groupG tA fC4 (by decide)⟩

/-- A File produced by the directory heuristic: its dictionary carries no
object_file key. -/
def fC5h : FileInfo :=
  { path := "/proj/d/x.c"
    target_name := "alpha"
    tree_root_dir := "/proj"
    tree_build_dir := "/proj/build"
    lang := none
    heuristics := true
    other_flags := []
    defines := []
    includes := []
    flags := [] }

/-- An index whose file map holds the directory-heuristic File fC5h. -/
def idxC5 : Index :=
  { idx1T with
    files := [("/proj/d/x.c", fC5h)]
    cache := [("CMAKE_CXX_COMPILER", "/usr/bin/g++")] }

/-- A codemodel-converted File with an empty flag list. -/
def fC5b : FileInfo :=
  { path := "/proj/d/a.cpp"
    target_name := "alpha"
    tree_root_dir := "/proj/build"
    tree_build_dir := "/proj/build"
    lang := some "CXX"
    heuristics := false
    other_flags := []
    defines := []
    includes := []
    flags := []
    object_file := some "/proj/build/CMakeFiles/alpha.dir/d/a.cpp.o" }

/-- An index whose file map holds only fC5b. -/
def idxC5b : Index :=
  { idx1T with
    files := [("/proj/d/a.cpp", fC5b)]
    cache := [("CMAKE_CXX_COMPILER", "/usr/bin/g++")] }

/-- C5 counterexample: the index idxC5 knows the File fC5h (inserted by
the directory heuristic, hence without an object_file key), and the
projection over that index raises KeyError instead of emitting a record
for every known File. -/
theorem generate_compilation_database_keyerror_on_heuristic_file :
    dmem idxC5.files "/proj/d/x.c" = true ∧
    generate_compilation_database idxC5 = .error (.keyError "object_file") := by
  exact ⟨rfl, rfl⟩

/-- String append is associative (by reduction to list append on the
underlying character data). -/
lemma str_append_assoc (a b c : String) : a ++ b ++ c = a ++ (b ++ c) := by
  rcases a with ⟨la⟩
  rcases b with ⟨lb⟩
  rcases c with ⟨lc⟩
  show String.mk (la ++ lb ++ lc) = String.mk (la ++ (lb ++ lc))
  rw [List.append_assoc]

/-- The projection loop in closed form when every file carries an object
path. -/
lemma compdbGo_map (idx : Index) (l : List (String × FileInfo))
    (h : ∀ p ∈ l, (p.2.object_file).isSome = true) :
    compdbGo idx l = .ok (l.map (fun p =>
      { directory := p.2.tree_build_dir
        file := p.2.path
        command := pyStr (Index.cache_variable idx ("CMAKE_" ++ pyStr p.2.lang ++ "_COMPILER"))
          ++ " " ++ String.intercalate " " p.2.flags ++ " -c " ++ p.2.path ++ " -o "
          ++ p.2.object_file.getD "" })) := by
  induction l with
  | nil => rfl
  | cons a l ih =>
    have hhead := h a (List.mem_cons_self a l)
    have htail : ∀ p ∈ l, (p.2.object_file).isSome = true :=
      fun p hp => h p (List.mem_cons_of_mem a hp)
    rcases a with ⟨k, f⟩
    cases hobj : f.object_file with
    | none => rw [hobj] at hhead; cases hhead
    | some obj =>
      show (do
        let entry ← compdbRecord idx f
        let tail ← compdbGo idx l
        pure (entry :: tail)) = _
      rw [show compdbRecord idx f = .ok
          { directory := f.tree_build_dir
            file := f.path
            command := pyStr (Index.cache_variable idx ("CMAKE_" ++ pyStr f.lang ++ "_COMPILER"))
              ++ " " ++ String.intercalate " " f.flags ++ " -c " ++ f.path ++ " -o " ++ obj }
        from by unfold compdbRecord; rw [hobj]]
      rw [ih htail]
      simp only [List.map_cons]
      rw [show f.object_file.getD "" = obj from by rw [hobj]; rfl]
      rfl

/-- C5 amended: when every File in the index carries an object path (as
every codemodel-converted and every header-matched File does), the
projection emits exactly one record per File, with the file's build
directory, its absolute path, and the command assembled from the
per-language compiler cache variable, the joined flags, and the
-c / -o tail; with an empty flag list the command degenerates to the same
shape with an empty flags segment (two spaces), not to a failure.  A File
inserted by the directory heuristic has no object path and makes the
projection raise KeyError instead. -/
theorem generate_compilation_database_records (idx : Index)
    (h : ∀ p ∈ idx.files, (p.2.object_file).isSome = true) :
    generate_compilation_database idx = .ok (idx.files.map (fun p =>
      { directory := p.2.tree_build_dir
        file := p.2.path
        command := pyStr (Index.cache_variable idx ("CMAKE_" ++ pyStr p.2.lang ++ "_COMPILER"))
          ++ " " ++ String.intercalate " " p.2.flags ++ " -c " ++ p.2.path ++ " -o "
          ++ p.2.object_file.getD "" })) ∧
    ∀ p ∈ idx.files, p.2.flags = [] →
      pyStr (Index.cache_variable idx ("CMAKE_" ++ pyStr p.2.lang ++ "_COMPILER"))
          ++ " " ++ String.intercalate " " p.2.flags ++ " -c " ++ p.2.path ++ " -o "
          ++ p.2.object_file.getD "" =
        pyStr (Index.cache_variable idx ("CMAKE_" ++ pyStr p.2.lang ++ "_COMPILER"))
          ++ "  -c " ++ p.2.path ++ " -o " ++ p.2.object_file.getD "" := by
  constructor
  · exact compdbGo_map idx idx.files h
  · intro p _ hfl
    rw [hfl]
    have hd : ∀ x y : String, (x ++ y).data = x.data ++ y.data := fun x y => rfl
    have hdq : ∀ s t : String, s.data = t.data → s = t := by
      intro s t hst
      rcases s with ⟨ls⟩
      rcases t with ⟨lt⟩
      exact congrArg String.mk hst
    apply hdq
    simp only [hd, List.append_assoc]
    rfl

/-- Witness for the amended C5: on the concrete index idxC5b, whose one
File has empty flags, the projection yields the fully evaluated record
with the doubled space and the -c / -o tail intact. -/
theorem generate_compilation_database_records_witness :
    generate_compilation_database idxC5b = .ok
      [{ directory := "/proj/build"
         file := "/proj/d/a.cpp"
         command := "/usr/bin/g++  -c /proj/d/a.cpp -o /proj/build/CMakeFiles/alpha.dir/d/a.cpp.o" }] := by
  have h := (generate_compilation_database_records idxC5b (by decide)).1
  rw [h]
  rfl

/-- C6: for a path absent from the file map whose directory is owned by
exactly one target (present in the target map under its own name, with
its filepaths key set), the first query_file call with heuristics returns
a synthesized record and the mutated index, and the second call on that
index returns the exact same record and the exact same index: the entry
was memoized in the file map, so the second call is an exact-match hit
and the directory scan is not re-run (a re-run would append the path to
the target's filepaths a second time and change the index). -/
theorem query_file_single_target_idempotent (fs : FS) (idx : Index) (p : String)
    (t : Target) (fps : List String)
    (hnot : dget idx.files p = none)
    (hdir : targets_in_directory (pyDirname p) idx.targets = [t])
    (hname : dget idx.targets t.name = some t)
    (hfps : t.filepaths = some fps) :
    ∃ r idx', Index.query_file fs idx p true = .ok (some r, idx') ∧
      dget idx'.files p = some r ∧
      Index.query_file fs idx' p true = .ok (some r, idx') := by
  have hg : get_file_info_for_directory fs.cwd p idx.targets = some
      { path := p
        target_name := t.name
        tree_root_dir := t.tree_root_dir
        tree_build_dir := t.tree_build_dir
        lang := none
        heuristics := true
        other_flags := t.all_other_flags
        defines := t.all_defines
        includes := t.all_includes
        flags := t.all_flags } := by
    unfold get_file_info_for_directory
    rw [hdir]
    rfl
  have hmem : dmem idx.targets t.name = true := by
    rw [dmem, hname]
    rfl
  refine ⟨{ path := p
            target_name := t.name
            tree_root_dir := t.tree_root_dir
            tree_build_dir := t.tree_build_dir
            lang := none
            heuristics := true
            other_flags := t.all_other_flags
            defines := t.all_defines
            includes := t.all_includes
            flags := t.all_flags },
          { idx with
            files := dset idx.files p
              { path := p
                target_name := t.name
                tree_root_dir := t.tree_root_dir
                tree_build_dir := t.tree_build_dir
                lang := none
                heuristics := true
                other_flags := t.all_other_flags
                defines := t.all_defines
                includes := t.all_includes
                flags := t.all_flags }
            targets := dset idx.targets t.name { t with filepaths := some (fps ++ [p]) } },
          ?_, ?_, ?_⟩
  · unfold Index.query_file
    rw [hnot, hg]
    simp only [hmem, if_true, hname, hfps]
  · exact dget_dset_self idx.files p _
  · unfold Index.query_file
    rw [show dget (dset idx.files p
        { path := p
          target_name := t.name
          tree_root_dir := t.tree_root_dir
          tree_build_dir := t.tree_build_dir
          lang := none
          heuristics := true
          other_flags := t.all_other_flags
          defines := t.all_defines
          includes := t.all_includes
          flags := t.all_flags }) p = some _ from dget_dset_self idx.files p _]

/-- Witness for C6 at the single-target index idx1T and the unknown path
/proj/d/new.c. -/
theorem query_file_single_target_idempotent_witness :
    dget idx1T.files "/proj/d/new.c" = none ∧
    targets_in_directory (pyDirname "/proj/d/new.c") idx1T.targets = [tA] ∧
    dget idx1T.targets tA.name = some tA ∧
    tA.filepaths = some ["/proj/d/a.c"] ∧
    ∃ r idx', Index.query_file fsPlain idx1T "/proj/d/new.c" true = .ok (some r, idx') ∧
      dget idx'.files "/proj/d/new.c" = some r ∧
      Index.query_file fsPlain idx' "/proj/d/new.c" true = .ok (some r, idx') :=
  ⟨rfl, by decide, by decide, rfl,
    query_file_single_target_idempotent fsPlain idx1T "/proj/d/new.c" tA
      ["/proj/d/a.c"] rfl (by decide) (by decide) rfl⟩

/-- C7 amended: when a known source file's header match succeeds (its
first name-matching include resolves on the working directory followed by
the file's include list), and no other scanned file's pairing writes the
header's or the source's path (pairings are recorded with last-wins
dictionary writes, so a collision would overwrite the back-reference —
the counterexample below shows the unrestricted claim failing), the files
map after the initialize step contains a heuristic entry for the header —
carrying source_file = the source's path and the source's flags — and the
source's own record annotated with header_file = the header's path. -/
theorem header_heuristics_backfill (fs : FS) (l1 l2 : List (String × FileInfo))
    (k : String) (f h : FileInfo)
    (hmh : match_header fs f = .ok (some h))
    (hfh : h.path ≠ f.path)
    (habs : ∀ p ∈ l1 ++ (k, f) :: l2, mhAbsorbable (match_header fs p.2) = true)
    (hnocol : ∀ p ∈ l2, (p.2.path ≠ h.path ∧ p.2.path ≠ f.path) ∧
      ∀ h', match_header fs p.2 = .ok (some h') → h'.path ≠ h.path ∧ h'.path ≠ f.path) :
    ∃ files', initialize_files fs (l1 ++ (k, f) :: l2) = .ok files' ∧
      dget files' h.path = some h ∧
      dget files' f.path = some { f with header_file := some h.path } ∧
      h.heuristics = true ∧ h.source_file = some f.path ∧ h.flags = f.flags := by
  have habs1 : ∀ p ∈ l1, mhAbsorbable (match_header fs p.2) = true :=
    fun p hp => habs p (List.mem_append_left _ hp)
  have habs2 : ∀ p ∈ l2, mhAbsorbable (match_header fs p.2) = true :=
    fun p hp => habs p (List.mem_append_right _ (List.mem_cons_of_mem _ hp))
  obtain ⟨acc1, hacc1⟩ := runMHHGo_isOk fs l1 [] habs1
  obtain ⟨acc3, hacc3⟩ := runMHHGo_isOk fs l2
    (dset (dset acc1 h.path h) f.path { f with header_file := some h.path }) habs2
  have hfull : runMHHGo fs (l1 ++ (k, f) :: l2) [] = .ok acc3 := by
    rw [runMHHGo_append, hacc1]
    show runMHHGo fs ((k, f) :: l2) acc1 = .ok acc3
    rw [runMHHGo_cons, hmh]
    exact hacc3
  have hgf : dget (dset (dset acc1 h.path h) f.path
      { f with header_file := some h.path }) f.path =
      some { f with header_file := some h.path } := dget_dset_self _ _ _
  have hgh : dget (dset (dset acc1 h.path h) f.path
      { f with header_file := some h.path }) h.path = some h := by
    rw [dget_dset_ne _ _ _ _ (Ne.symm hfh)]
    exact dget_dset_self _ _ _
  have hp3h : dget acc3 h.path = some h :=
    runMHHGo_preserve fs l2 _ acc3 h.path h hacc3 hgh
      (fun p hp => ⟨((hnocol p hp).1).1, fun h' hm' => ((hnocol p hp).2 h' hm').1⟩)
  have hp3f : dget acc3 f.path = some { f with header_file := some h.path } :=
    runMHHGo_preserve fs l2 _ acc3 f.path _ hacc3 hgf
      (fun p hp => ⟨((hnocol p hp).1).2, fun h' hm' => ((hnocol p hp).2 h' hm').2⟩)
  have hnd : (acc3.map Prod.fst).Nodup :=
    runMHHGo_keys_nodup fs _ [] acc3 (by simp) hfull
  refine ⟨dictUpdate (l1 ++ (k, f) :: l2) acc3, ?_, ?_, ?_, ?_, ?_, ?_⟩
  · unfold initialize_files run_matching_header_heuristics
    rw [hfull]
    rfl
  · exact dget_dictUpdate_of_dget hp3h hnd _
  · exact dget_dictUpdate_of_dget hp3f hnd _
  · exact (match_header_shape hmh).1
  · exact (match_header_shape hmh).2.1
  · exact (match_header_shape hmh).2.2.1

/-- A filesystem in which /proj/foo.cpp holds one name-matching include
directive and the header exists in the include directory /proj/inc. -/
def fsC7 : FS :=
  { cwd := "/work"
    isfile := fun p => p = "/proj/inc/foo.hpp"
    readFile := fun p =>
      if p = "/proj/foo.cpp" then .ok ["#include <foo.hpp>", "int x;"]
      else .error .ioError }

/-- The heuristic header record match_header produces for fC3 on fsC7. -/
def hC7 : FileInfo :=
  { fC3 with
    heuristics := true
    source_file := some "/proj/foo.cpp"
    path := "/proj/inc/foo.hpp" }

/-- Witness for C7 at the one-file map holding fC3 on fsC7. -/
theorem header_heuristics_backfill_witness :
    match_header fsC7 fC3 = .ok (some hC7) ∧
    ∃ files', initialize_files fsC7 [("/proj/foo.cpp", fC3)] = .ok files' ∧
      dget files' hC7.path = some hC7 ∧
      dget files' fC3.path = some { fC3 with header_file := some hC7.path } ∧
      hC7.heuristics = true ∧ hC7.source_file = some fC3.path ∧ hC7.flags = fC3.flags :=
  ⟨rfl,
    header_heuristics_backfill fsC7 [] [] "/proj/foo.cpp" fC3 hC7 rfl (by decide)
      (by intro p hp
          rcases List.mem_singleton.mp hp with rfl
          rfl)
      (fun p hp => absurd hp (List.not_mem_nil p))⟩

/-- A filesystem with two source files named util.cpp in different
directories, each holding one name-matching include directive that
resolves to the one shared header /inc/util.h. -/
def fsCol : FS :=
  { cwd := "/work"
    isfile := fun p => p = "/inc/util.h"
    readFile := fun p =>
      if p = "/a/util.cpp" then .ok ["#include \"util.h\""]
      else if p = "/b/util.cpp" then .ok ["#include \"util.h\""]
      else .error .ioError }

/-- The first of the two same-basename source files. -/
def fColA : FileInfo :=
  { path := "/a/util.cpp"
    target_name := "alpha"
    tree_root_dir := "/proj"
    tree_build_dir := "/proj/build"
    lang := some "CXX"
    heuristics := false
    other_flags := []
    defines := []
    includes := ["/inc"]
    flags := ["-DA"]
    object_file := some "/o/a.o" }

/-- The second same-basename source file, scanned after the first. -/
def fColB : FileInfo :=
  { fColA with
    path := "/b/util.cpp"
    flags := ["-DB"]
    object_file := some "/o/b.o" }

/-- The header record the heuristic pairs with the first source. -/
def hColA : FileInfo :=
  { fColA with
    heuristics := true
    source_file := some "/a/util.cpp"
    path := "/inc/util.h" }

/-- The header record the heuristic pairs with the second source. -/
def hColB : FileInfo :=
  { fColB with
    heuristics := true
    source_file := some "/b/util.cpp"
    path := "/inc/util.h" }

/-- C7 counterexample: both source files satisfy the claim's premise —
each one's first name-matching include resolves to the same existing
header /inc/util.h, pairing it with that source — yet after the
initialize step the file map's only entry at the header's path is the
second pairing, whose source_file names /b/util.cpp: the entry the claim
promises for the first source, with source_file = /a/util.cpp, is not in
the index, refuting the claim for that source. -/
theorem header_heuristics_backfill_collision_counterexample :
    match_header fsCol fColA = .ok (some hColA) ∧
    hColA.path = "/inc/util.h" ∧
    hColA.source_file = some fColA.path ∧
    match_header fsCol fColB = .ok (some hColB) ∧
    hColB.path = "/inc/util.h" ∧
    (initialize_files fsCol [("/a/util.cpp", fColA), ("/b/util.cpp", fColB)]).map
      (fun files' => dget files' "/inc/util.h") = .ok (some hColB) ∧
    hColB.source_file ≠ some fColA.path := by
  refine ⟨rfl, rfl, rfl, rfl, rfl, rfl, ?_⟩
  decide

/-- C8: the reader loop consumes the signal and message frames that
arrive before the decisive frame, dispatching them to their handlers in
arrival order and reading on; a reply frame is returned to the caller
with those dispatch lists; an error frame raises the exception carrying
exactly the server's errorMessage text. -/
theorem send_and_read_frame_handling (pre : List Frame) (r : Frame) (rest : List Frame)
    (hpre : ∀ g ∈ pre, g.ftype = "signal" ∨ g.ftype = "message") :
    (r.ftype = "reply" →
      send_and_read (pre ++ r :: rest) =
        .reply r (pre.filter (fun g => g.ftype == "signal"))
                 (pre.filter (fun g => g.ftype == "message"))) ∧
    (r.ftype = "error" →
      send_and_read (pre ++ r :: rest) = .errorRaised r.errorMessage) := by
  induction pre with
  | nil =>
    constructor
    · intro hr
      simp [send_and_read, hr]
    · intro hr
      have hne : r.ftype ≠ "reply" := by rw [hr]; decide
      simp [send_and_read, hr, hne]
  | cons a pre ih =>
    have ha := hpre a (List.mem_cons_self a pre)
    have hpre' : ∀ g ∈ pre, g.ftype = "signal" ∨ g.ftype = "message" :=
      fun g hg => hpre g (List.mem_cons_of_mem a hg)
    obtain ⟨ih1, ih2⟩ := ih hpre'
    have hanr : a.ftype ≠ "reply" := by
      rcases ha with hs | hm
      · rw [hs]; decide
      · rw [hm]; decide
    have hane : a.ftype ≠ "error" := by
      rcases ha with hs | hm
      · rw [hs]; decide
      · rw [hm]; decide
    constructor
    · intro hr
      rw [List.cons_append]
      rcases ha with hs | hm
      · have hnm : a.ftype ≠ "message" := by rw [hs]; decide
        simp [send_and_read, hanr, hane, ih1 hr, hs, List.filter_cons]
      · have hns : a.ftype ≠ "signal" := by rw [hm]; decide
        simp [send_and_read, hanr, hane, ih1 hr, hm, List.filter_cons]
    · intro hr
      rw [List.cons_append]
      simp [send_and_read, hanr, hane, ih2 hr]

/-- Witness for C8: a signal and a message frame ahead of a reply are
dispatched and the reply returned; ahead of an error frame the raised
message is the frame's errorMessage text. -/
theorem send_and_read_frame_handling_witness :
    send_and_read [⟨"signal", "", "s1"⟩, ⟨"message", "", "m1"⟩, ⟨"reply", "", "r"⟩] =
      .reply ⟨"reply", "", "r"⟩ [⟨"signal", "", "s1"⟩] [⟨"message", "", "m1"⟩] ∧
    send_and_read [⟨"signal", "", "s1"⟩, ⟨"error", "boom", ""⟩] = .errorRaised "boom" := by
  constructor
  · exact (send_and_read_frame_handling
      [⟨"signal", "", "s1"⟩, ⟨"message", "", "m1"⟩] ⟨"reply", "", "r"⟩ [] (by decide)).1 rfl
  · exact (send_and_read_frame_handling
      [⟨"signal", "", "s1"⟩] ⟨"error", "boom", ""⟩ [] (by decide)).2 rfl

/-- C9: an IOError or UnicodeDecodeError raised while reading one
candidate source file is absorbed — the heuristic's result is as if that
file were not in the map, and with every read either succeeding or
raising one of those two exceptions the initialize step completes — while
any other exception raised at a candidate file propagates out of the
heuristic unchanged. -/
theorem header_heuristics_error_absorption (fs : FS) (l1 l2 : List (String × FileInfo))
    (k : String) (f : FileInfo) :
    (∀ e, match_header fs f = .error e → (e = .ioError ∨ e = .unicodeDecodeError) →
      run_matching_header_heuristics fs (l1 ++ (k, f) :: l2) =
        run_matching_header_heuristics fs (l1 ++ l2)) ∧
    ((∀ p ∈ l1 ++ (k, f) :: l2, mhAbsorbable (match_header fs p.2) = true) →
      ∃ files', initialize_files fs (l1 ++ (k, f) :: l2) = .ok files') ∧
    (∀ e, (∀ p ∈ l1, mhAbsorbable (match_header fs p.2) = true) →
      match_header fs f = .error e → mhAbsorbable (match_header fs f) = false →
      run_matching_header_heuristics fs (l1 ++ (k, f) :: l2) = .error e) := by
  refine ⟨?_, ?_, ?_⟩
  · intro e hmh he
    unfold run_matching_header_heuristics
    rw [runMHHGo_append, runMHHGo_append]
    cases hl1 : runMHHGo fs l1 [] with
    | error e1 => rfl
    | ok acc1 =>
      show runMHHGo fs ((k, f) :: l2) acc1 = runMHHGo fs l2 acc1
      rw [runMHHGo_cons, hmh]
      rcases he with rfl | rfl
      · rfl
      · rfl
  · intro habs
    obtain ⟨acc, hacc⟩ := runMHHGo_isOk fs (l1 ++ (k, f) :: l2) [] habs
    refine ⟨dictUpdate (l1 ++ (k, f) :: l2) acc, ?_⟩
    unfold initialize_files run_matching_header_heuristics
    rw [hacc]
    rfl
  · intro e habs1 hmh hfalse
    obtain ⟨acc1, hacc1⟩ := runMHHGo_isOk fs l1 [] habs1
    unfold run_matching_header_heuristics
    rw [runMHHGo_append, hacc1]
    show runMHHGo fs ((k, f) :: l2) acc1 = .error e
    rw [runMHHGo_cons, hmh]
    rw [hmh] at hfalse
    cases e with
    | ioError => simp [mhAbsorbable] at hfalse
    | unicodeDecodeError => simp [mhAbsorbable] at hfalse
    | keyError s => rfl
    | otherError => rfl

/-- Witness for C9: on a filesystem raising IOError everywhere the one
candidate file is skipped (the run equals the run on the empty map), and
on a filesystem raising a different exception the run propagates it. -/
theorem header_heuristics_error_absorption_witness :
    run_matching_header_heuristics fsPlain [("/proj/foo.cpp", fC3)] =
      run_matching_header_heuristics fsPlain [] ∧
    run_matching_header_heuristics fsOther [("/proj/foo.cpp", fC3)] =
      .error .otherError := by
  constructor
  · exact (header_heuristics_error_absorption fsPlain [] [] "/proj/foo.cpp" fC3).1
      .ioError rfl (Or.inl rfl)
  · exact (header_heuristics_error_absorption fsOther [] [] "/proj/foo.cpp" fC3).2.2
      .otherError (fun p hp => absurd hp (List.not_mem_nil p)) rfl rfl

end CmakeIndex
